import Mathlib

set_option maxHeartbeats 1000000

/-!
Shallow embedding of the board/game-state core of `src/Game.cpp`
("Undercooked"): the 5×5 grid, the chef position, the three win flags,
board initialization (`Game::initBoard`), item spawning (`Game::spawnFood`),
pickup / win detection (`Game::getFood`) and directional input handling
(`Game::handle_event`).

Cell codes follow the source: 0 empty, 1 chef, 2 jelly, 3 peanut butter,
4 bread, 5 goal, 6 out-of-play side square.  The C++ `rand()` stream is
modelled as an explicit function `r : ℕ → ℕ` giving the successive values
returned by `rand()`; `rand() % len` with `len = 0` (which the C++ code
would reach when `spawnFood` is given fewer than four candidate cells) is
undefined behaviour and is modelled as the `Option.none` outcome.
-/

/-- A board coordinate, written `(x, y)` exactly as indexed by `board[x][y]`
in the update logic of the source. -/
abbrev Cell : Type := ℕ × ℕ

/-- The grid contents: the cell code stored at each coordinate. -/
abbrev Board : Type := Cell → ℕ

/-- Write cell code `v` at coordinate `c` (the C++ `board[x][y] = v`). -/
def setCell (b : Board) (c : Cell) (v : ℕ) : Board :=
  fun d => if d = c then v else b d

/-- The mutable game state of `Game.cpp`: the grid, the chef coordinates
`chef.x`/`chef.y`, and the file-scope win-condition flags `win.PB`,
`win.J`, `win.bread` (integers that the code compares against 1). -/
structure GameState where
  board : Board
  chefX : ℕ
  chefY : ℕ
  winPB : ℕ
  winJ : ℕ
  winBread : ℕ

/-- The grid as laid out by the double loop of `Game::initBoard`
(lines 230-244): code 1 at `(2,2)`, code 6 on the twelve non-corner edge
squares, code 0 everywhere else. -/
def initGrid : Board := fun c =>
  if c.1 = 2 ∧ c.2 = 2 then 1
  else if (c.2 = 0 ∧ 0 < c.1 ∧ c.1 < 4) ∨ (c.2 = 4 ∧ 0 < c.1 ∧ c.1 < 4) ∨
          (c.1 = 0 ∧ 0 < c.2 ∧ c.2 < 4) ∨ (c.1 = 4 ∧ 0 < c.2 ∧ c.2 < 4) then 6
  else 0

/-- The twelve candidate spawn cells pushed into `fillIn` by
`Game::initBoard` (lines 249-260), in source order. -/
def fillIn : List Cell :=
  [(0,1), (0,2), (0,3), (1,0), (2,0), (3,0),
   (4,1), (4,2), (4,3), (1,4), (2,4), (3,4)]

/-- The cell code written by iteration `i` of the loop in `Game::spawnFood`:
peanut butter (3) first, then jelly (2), bread (4), goal (5). -/
def foodCode (i : ℕ) : ℕ :=
  if i = 0 then 3 else if i = 1 then 2 else if i = 2 then 4 else 5

/-- The loop of `Game::spawnFood` (lines 320-343): on iteration `i` it draws
`ind = rand() % len`, writes `foodCode i` at the chosen cell, and erases the
cell from the candidate vector.  An empty candidate vector makes the C++
code evaluate `rand() % 0`, which is undefined behaviour, modelled as
`none`. -/
def spawnFoodGo (r : ℕ → ℕ) : ℕ → ℕ → List Cell → Board → Option Board
  | _, 0, _, b => some b
  | i, fuel+1, cs, b =>
    if h : 0 < cs.length then
      spawnFoodGo r (i+1) fuel (cs.eraseIdx (r i % cs.length))
        (setCell b (cs.get ⟨r i % cs.length, Nat.mod_lt _ h⟩) (foodCode i))
    else none

/-- `Game::spawnFood`: four draws of the loop above. -/
def spawnFood (r : ℕ → ℕ) (cs : List Cell) (b : Board) : Option Board :=
  spawnFoodGo r 0 4 cs b

/-- The grid produced by `Game::initBoard`: the static layout `initGrid`
with the four items spawned on it.  On the real 12-cell candidate list
`spawnFood` always succeeds, so the `getD` default is never taken. -/
def freshBoard (r : ℕ → ℕ) : Board :=
  (spawnFood r fillIn initGrid).getD initGrid

/-- `Game::initBoard` (lines 210-296): chef is put back at `(2,2)` and the
grid is rebuilt and respawned.  Note that the win flags are NOT touched by
this function in the source. -/
def initBoard (r : ℕ → ℕ) (s : GameState) : GameState :=
  { s with chefX := 2, chefY := 2, board := freshBoard r }

/-- The cell inspected by `Game::getFood` for direction code `dir`
(lines 350-373): 0 checks the row above, 1 the row below, 2 the column to
the left, 3 the column to the right of the chef. -/
def targetCell (s : GameState) (dir : ℕ) : Cell :=
  if dir = 0 then (s.chefX - 1, s.chefY)
  else if dir = 1 then (s.chefX + 1, s.chefY)
  else if dir = 2 then (s.chefX, s.chefY - 1)
  else (s.chefX, s.chefY + 1)

/-- `Game::getFood` (lines 346-401).  On a goal square (5) with all three
win flags equal to 1 it zeroes the flags and re-runs `initBoard`; on an
ingredient square (2, 3, 4) it sets the matching flag to 1 and overwrites
the square with 6; otherwise it does nothing. -/
def getFood (r : ℕ → ℕ) (dir : ℕ) (s : GameState) : GameState :=
  if 1 < s.board (targetCell s dir) ∧ s.board (targetCell s dir) < 6 then
    if s.board (targetCell s dir) = 5 then
      if s.winPB = 1 ∧ s.winJ = 1 ∧ s.winBread = 1 then
        initBoard r { s with winPB := 0, winJ := 0, winBread := 0 }
      else s
    else
      if s.board (targetCell s dir) = 3 then
        { s with winPB := 1, board := setCell s.board (targetCell s dir) 6 }
      else if s.board (targetCell s dir) = 2 then
        { s with winJ := 1, board := setCell s.board (targetCell s dir) 6 }
      else
        { s with winBread := 1, board := setCell s.board (targetCell s dir) 6 }
  else s

/-- Moving the chef representation: the vacated square is zeroed and the
entered square is set to 1 (the repeated block of `Game::handle_event`). -/
def moveChef (s : GameState) (nx ny : ℕ) : GameState :=
  { s with
    board := setCell (setCell s.board (s.chefX, s.chefY) 0) (nx, ny) 1,
    chefX := nx, chefY := ny }

/-- A directional key. -/
inductive Dir
  | up
  | down
  | left
  | right

/-- An SDL event as far as `Game::handle_event` distinguishes them: a fresh
directional key press, or anything else (including auto-repeat keydowns,
which are filtered out at lines 415-417). -/
inductive GEvent
  | press (d : Dir)
  | other

/-- `Game::handle_event` (lines 413-483), returning the pair (return value,
state after the call).  A press at the boundary coordinate first runs
`getFood`; the move guard is then re-tested on the possibly updated chef
coordinates, exactly as in the source. -/
def handle_event (r : ℕ → ℕ) (e : GEvent) (s : GameState) : Bool × GameState :=
  match e with
  | .other => (false, s)
  | .press d =>
    match d with
    | .up =>
      let s1 := if s.chefX = 3 then getFood r 1 s else s
      (true, if s1.chefX < 3 then moveChef s1 (s1.chefX + 1) s1.chefY else s1)
    | .down =>
      let s1 := if s.chefX = 1 then getFood r 0 s else s
      (true, if 1 < s1.chefX then moveChef s1 (s1.chefX - 1) s1.chefY else s1)
    | .left =>
      let s1 := if s.chefY = 1 then getFood r 2 s else s
      (true, if 1 < s1.chefY then moveChef s1 s1.chefX (s1.chefY - 1) else s1)
    | .right =>
      let s1 := if s.chefY = 3 then getFood r 3 s else s
      (true, if s1.chefY < 3 then moveChef s1 s1.chefX (s1.chefY + 1) else s1)

/-- One externally driven operation: a board re-initialization or one
discrete directional press, each with the `rand()` values it may consume. -/
inductive Op
  | reinit (r : ℕ → ℕ)
  | move (r : ℕ → ℕ) (d : Dir)

/-- Apply one operation. -/
def runOp (op : Op) (s : GameState) : GameState :=
  match op with
  | .reinit r => initBoard r s
  | .move r d => (handle_event r (GEvent.press d) s).2

/-- Apply a sequence of operations in order. -/
def runOps (s : GameState) : List Op → GameState
  | [] => s
  | op :: rest => runOps (runOp op s) rest

/-- The 25 coordinates of the 5×5 grid. -/
def allCells : Finset Cell := Finset.range 5 ×ˢ Finset.range 5

/-- How many grid cells currently hold cell code `v`. -/
def countCode (b : Board) (v : ℕ) : ℕ :=
  (allCells.filter (fun c => b c = v)).card

/-- Evaluating `setCell` is the obvious conditional. -/
lemma setCell_apply (b : Board) (c d : Cell) (v : ℕ) :
    setCell b c v d = if d = c then v else b d := rfl

/-- The static layout only contains the codes 0, 1 and 6. -/
lemma initGrid_cases (c : Cell) :
    initGrid c = 0 ∨ initGrid c = 1 ∨ initGrid c = 6 := by
  unfold initGrid
  split_ifs <;> simp

/-- The static layout holds the chef code exactly at `(2,2)`. -/
lemma initGrid_eq_one (c : Cell) : initGrid c = 1 ↔ c = (2, 2) := by
  obtain ⟨x, y⟩ := c
  unfold initGrid
  simp only [Prod.mk.injEq]
  split_ifs with h1 h2 <;> simpa using h1

/-- Each food code is one of 2, 3, 4, 5; in particular never the chef
code 1 and never 0 or 6. -/
lemma foodCode_cases (i : ℕ) :
    foodCode i = 3 ∨ foodCode i = 2 ∨ foodCode i = 4 ∨ foodCode i = 5 := by
  unfold foodCode
  split_ifs <;> simp

/-- In a duplicate-free list, the element at index `n` does not survive
erasing index `n`. -/
lemma get_not_mem_eraseIdx :
    ∀ (l : List Cell) (n : ℕ) (h : n < l.length),
      l.Nodup → l.get ⟨n, h⟩ ∉ l.eraseIdx n := by
  intro l
  induction l with
  | nil => intro n h; simp at h
  | cons a t ih =>
    intro n h hnd
    match n with
    | 0 =>
      simpa [List.eraseIdx] using (List.nodup_cons.mp hnd).1
    | Nat.succ m =>
      intro hmem
      have hm : m < t.length := by simpa using h
      simp only [List.get_cons_succ, List.eraseIdx, List.mem_cons] at hmem
      rcases hmem with h1 | h2
      · exact (List.nodup_cons.mp hnd).1 (h1 ▸ t.get_mem m hm)
      · exact ih m hm (List.nodup_cons.mp hnd).2 h2

/-- The successive writes performed by the `spawnFood` loop, starting at
iteration index `i`. -/
def writeAll (b : Board) : ℕ → List Cell → Board
  | _, [] => b
  | i, c :: cs => writeAll (setCell b c (foodCode i)) (i+1) cs

/-- Cells that are never written keep their previous code. -/
lemma writeAll_not_mem :
    ∀ (picks : List Cell) (i : ℕ) (b : Board) (c : Cell),
      c ∉ picks → writeAll b i picks c = b c := by
  intro picks
  induction picks with
  | nil => intro i b c _; rfl
  | cons a t ih =>
    intro i b c hc
    rw [writeAll]
    rw [ih (i+1) (setCell b a (foodCode i)) c (fun h => hc (List.mem_cons_of_mem a h))]
    have hca : c ≠ a := fun h => hc (by rw [h]; exact List.mem_cons_self a t)
    simp [setCell, hca]

/-- The cell written on the `j`-th pick holds `foodCode (i + j)` at the end,
provided no later pick overwrites it (guaranteed by duplicate-freeness). -/
lemma writeAll_get :
    ∀ (picks : List Cell) (i : ℕ) (b : Board) (j : ℕ) (h : j < picks.length),
      picks.Nodup → writeAll b i picks (picks.get ⟨j, h⟩) = foodCode (i + j) := by
  intro picks
  induction picks with
  | nil => intro i b j h; simp at h
  | cons a t ih =>
    intro i b j h hnd
    match j with
    | 0 =>
      show writeAll (setCell b a (foodCode i)) (i+1) t a = foodCode (i + 0)
      rw [writeAll_not_mem t (i+1) (setCell b a (foodCode i)) a (List.nodup_cons.mp hnd).1]
      simp [setCell]
    | Nat.succ m =>
      have hm : m < t.length := by simpa using h
      show writeAll (setCell b a (foodCode i)) (i+1) t (t.get ⟨m, hm⟩) = foodCode (i + (m+1))
      rw [ih (i+1) _ m hm (List.nodup_cons.mp hnd).2]
      congr 1
      omega

/-- The spawn loop, run for `fuel` iterations on a duplicate-free candidate
list that is long enough, succeeds and amounts to writing the successive
food codes on `fuel` distinct cells drawn from the candidate list. -/
lemma spawnFoodGo_spec (r : ℕ → ℕ) :
    ∀ (fuel i : ℕ) (cs : List Cell) (b : Board),
      cs.Nodup → fuel ≤ cs.length →
      ∃ picks : List Cell, picks.length = fuel ∧ picks.Nodup ∧
        (∀ c ∈ picks, c ∈ cs) ∧
        spawnFoodGo r i fuel cs b = some (writeAll b i picks) := by
  intro fuel
  induction fuel with
  | zero =>
    intro i cs b _ _
    exact ⟨[], rfl, List.nodup_nil, by simp, rfl⟩
  | succ n ih =>
    intro i cs b hnd hlen
    have hpos : 0 < cs.length := lt_of_lt_of_le (Nat.succ_pos n) hlen
    have hind : r i % cs.length < cs.length := Nat.mod_lt _ hpos
    have hnd2 : (cs.eraseIdx (r i % cs.length)).Nodup :=
      (List.eraseIdx_sublist cs (r i % cs.length)).nodup hnd
    have hlen2 : n ≤ (cs.eraseIdx (r i % cs.length)).length := by
      rw [List.length_eraseIdx]
      simp only [hind, if_true]
      omega
    obtain ⟨picks, hl, hp, hsub, heq⟩ :=
      ih (i+1) (cs.eraseIdx (r i % cs.length))
        (setCell b (cs.get ⟨r i % cs.length, hind⟩) (foodCode i)) hnd2 hlen2
    refine ⟨cs.get ⟨r i % cs.length, hind⟩ :: picks, by simp [hl], ?_, ?_, ?_⟩
    · rw [List.nodup_cons]
      constructor
      · intro hmem
        exact get_not_mem_eraseIdx cs (r i % cs.length) hind hnd (hsub _ hmem)
      · exact hp
    · intro c hc
      rcases List.mem_cons.mp hc with h1 | h2
      · rw [h1]
        exact cs.get_mem _ _
      · exact (List.eraseIdx_sublist cs (r i % cs.length)).mem (hsub c h2)
    · rw [spawnFoodGo]
      rw [dif_pos hpos]
      exact heq

/-- The spawn loop runs out of candidate cells when given fewer cells than
iterations: the draw `rand() % 0` is reached, modelled as `none`. -/
lemma spawnFoodGo_short (r : ℕ → ℕ) :
    ∀ (fuel i : ℕ) (cs : List Cell) (b : Board),
      cs.length < fuel → spawnFoodGo r i fuel cs b = none := by
  intro fuel
  induction fuel with
  | zero =>
    intro i cs b h
    simp at h
  | succ n ih =>
    intro i cs b h
    rw [spawnFoodGo]
    by_cases hpos : 0 < cs.length
    · rw [dif_pos hpos]
      apply ih
      rw [List.length_eraseIdx]
      have hind : r i % cs.length < cs.length := Nat.mod_lt _ hpos
      simp only [hind, if_true]
      omega
    · rw [dif_neg hpos]

/-- The candidate list of `Game::initBoard` is duplicate-free. -/
lemma fillIn_nodup : fillIn.Nodup := by decide

/-- Every candidate spawn cell lies on the 5×5 grid. -/
lemma fillIn_sub_allCells : ∀ c ∈ fillIn, c ∈ allCells := by decide

/-- The chef start square is not a candidate spawn cell. -/
lemma start_not_mem_fillIn : ((2, 2) : Cell) ∉ fillIn := by decide

/-- The board built by `Game::initBoard` is the static layout with the four
food codes written, in spawn order, on four pairwise distinct cells of the
candidate list. -/
lemma freshBoard_spec (r : ℕ → ℕ) :
    ∃ c0 c1 c2 c3 : Cell,
      c0 ∈ fillIn ∧ c1 ∈ fillIn ∧ c2 ∈ fillIn ∧ c3 ∈ fillIn ∧
      c0 ≠ c1 ∧ c0 ≠ c2 ∧ c0 ≠ c3 ∧ c1 ≠ c2 ∧ c1 ≠ c3 ∧ c2 ≠ c3 ∧
      freshBoard r =
        setCell (setCell (setCell (setCell initGrid c0 3) c1 2) c2 4) c3 5 := by
  obtain ⟨picks, hl, hnd, hsub, heq⟩ :=
    spawnFoodGo_spec r 4 0 fillIn initGrid fillIn_nodup (by decide)
  match picks, hl with
  | [c0, c1, c2, c3], _ =>
    simp only [List.nodup_cons, List.mem_cons, List.not_mem_nil, or_false,
      List.nodup_nil, and_true, not_or] at hnd
    refine ⟨c0, c1, c2, c3, hsub c0 (by simp), hsub c1 (by simp),
      hsub c2 (by simp), hsub c3 (by simp),
      hnd.1.1, hnd.1.2.1, hnd.1.2.2, hnd.2.1.1, hnd.2.1.2, hnd.2.2.1, ?_⟩
    unfold freshBoard spawnFood
    rw [heq]
    rfl

/-- Evaluating the four layered spawn writes. -/
lemma layered_apply (b : Board) (c0 c1 c2 c3 d : Cell) :
    setCell (setCell (setCell (setCell b c0 3) c1 2) c2 4) c3 5 d =
      if d = c3 then 5 else if d = c2 then 4
      else if d = c1 then 2 else if d = c0 then 3 else b d := rfl

/-- A board showing code `v` exactly at the single grid cell `c0` has
count 1 for `v`. -/
lemma countCode_eq_one (b : Board) (v : ℕ) (c0 : Cell) (h0 : c0 ∈ allCells)
    (hv : b c0 = v) (ho : ∀ c, c ≠ c0 → b c ≠ v) : countCode b v = 1 := by
  unfold countCode
  rw [Finset.card_eq_one]
  refine ⟨c0, ?_⟩
  ext c
  simp only [Finset.mem_filter, Finset.mem_singleton]
  constructor
  · rintro ⟨hc, hb⟩
    by_contra hne
    exact ho c hne hb
  · rintro rfl
    exact ⟨h0, hv⟩

/-- The play invariant: the chef coordinates lie in the movable interior
`[1,3]×[1,3]`, the chef's square holds code 1 and no other coordinate
does. -/
def Good (s : GameState) : Prop :=
  1 ≤ s.chefX ∧ s.chefX ≤ 3 ∧ 1 ≤ s.chefY ∧ s.chefY ≤ 3 ∧
  s.board (s.chefX, s.chefY) = 1 ∧
  ∀ c : Cell, c ≠ (s.chefX, s.chefY) → s.board c ≠ 1

/-- `Game::initBoard` establishes the play invariant. -/
lemma good_initBoard (r : ℕ → ℕ) (s : GameState) : Good (initBoard r s) := by
  obtain ⟨c0, c1, c2, c3, m0, m1, m2, m3, _, _, _, _, _, _, hb⟩ := freshBoard_spec r
  have hm : ∀ c ∈ fillIn, c ≠ ((2, 2) : Cell) := by decide
  refine ⟨show (1:ℕ) ≤ 2 by decide, show (2:ℕ) ≤ 3 by decide,
    show (1:ℕ) ≤ 2 by decide, show (2:ℕ) ≤ 3 by decide, ?_, ?_⟩
  · show freshBoard r (2, 2) = 1
    rw [hb, layered_apply]
    rw [if_neg (fun h => hm c3 m3 h.symm), if_neg (fun h => hm c2 m2 h.symm),
      if_neg (fun h => hm c1 m1 h.symm), if_neg (fun h => hm c0 m0 h.symm)]
    rfl
  · intro c hc
    have hc2 : c ≠ ((2, 2) : Cell) := hc
    show freshBoard r c ≠ 1
    rw [hb, layered_apply]
    split_ifs <;> try norm_num
    exact fun h => hc2 ((initGrid_eq_one c).mp h)

/-- The inspected cell never coincides with the chef's own square while the
chef is inside the board interior. -/
lemma targetCell_ne (s : GameState) (dir : ℕ)
    (hx : 1 ≤ s.chefX) (hy : 1 ≤ s.chefY) :
    targetCell s dir ≠ (s.chefX, s.chefY) := by
  unfold targetCell
  split_ifs <;> intro h <;> rw [Prod.mk.injEq] at h <;> omega

/-- `Game::getFood` preserves the play invariant. -/
lemma good_getFood (r : ℕ → ℕ) (dir : ℕ) (s : GameState) (hg : Good s) :
    Good (getFood r dir s) := by
  obtain ⟨hx1, hx3, hy1, hy3, hchef, hother⟩ := hg
  have hne : targetCell s dir ≠ (s.chefX, s.chefY) := targetCell_ne s dir hx1 hy1
  unfold getFood
  split_ifs with h1 h2 h3 h4 h5
  · exact good_initBoard r _
  · exact ⟨hx1, hx3, hy1, hy3, hchef, hother⟩
  · refine ⟨hx1, hx3, hy1, hy3, ?_, ?_⟩
    · show setCell s.board (targetCell s dir) 6 (s.chefX, s.chefY) = 1
      rw [setCell_apply, if_neg (fun h => hne h.symm)]
      exact hchef
    · intro c hc
      show setCell s.board (targetCell s dir) 6 c ≠ 1
      rw [setCell_apply]
      split_ifs
      · norm_num
      · exact hother c hc
  · refine ⟨hx1, hx3, hy1, hy3, ?_, ?_⟩
    · show setCell s.board (targetCell s dir) 6 (s.chefX, s.chefY) = 1
      rw [setCell_apply, if_neg (fun h => hne h.symm)]
      exact hchef
    · intro c hc
      show setCell s.board (targetCell s dir) 6 c ≠ 1
      rw [setCell_apply]
      split_ifs
      · norm_num
      · exact hother c hc
  · refine ⟨hx1, hx3, hy1, hy3, ?_, ?_⟩
    · show setCell s.board (targetCell s dir) 6 (s.chefX, s.chefY) = 1
      rw [setCell_apply, if_neg (fun h => hne h.symm)]
      exact hchef
    · intro c hc
      show setCell s.board (targetCell s dir) 6 c ≠ 1
      rw [setCell_apply]
      split_ifs
      · norm_num
      · exact hother c hc
  · exact ⟨hx1, hx3, hy1, hy3, hchef, hother⟩

/-- Moving the chef to a different interior square preserves the play
invariant. -/
lemma good_moveChef (s : GameState) (nx ny : ℕ) (hg : Good s)
    (h1 : 1 ≤ nx) (h2 : nx ≤ 3) (h3 : 1 ≤ ny) (h4 : ny ≤ 3) :
    Good (moveChef s nx ny) := by
  obtain ⟨_, _, _, _, hchef, hother⟩ := hg
  refine ⟨h1, h2, h3, h4, ?_, ?_⟩
  · show setCell (setCell s.board (s.chefX, s.chefY) 0) (nx, ny) 1 (nx, ny) = 1
    rw [setCell_apply, if_pos rfl]
  · intro c hc
    have hc2 : c ≠ ((nx, ny) : Cell) := hc
    show setCell (setCell s.board (s.chefX, s.chefY) 0) (nx, ny) 1 c ≠ 1
    rw [setCell_apply, if_neg hc2, setCell_apply]
    split_ifs with h
    · norm_num
    · exact hother c h

/-- Stepping one square up (x+1) when allowed preserves the invariant. -/
lemma good_upStep (t : GameState) (hgt : Good t) :
    Good (if t.chefX < 3 then moveChef t (t.chefX + 1) t.chefY else t) := by
  split_ifs with h
  · exact good_moveChef t _ _ hgt (by omega) (by omega) hgt.2.2.1 hgt.2.2.2.1
  · exact hgt

/-- Stepping one square down (x-1) when allowed preserves the invariant. -/
lemma good_downStep (t : GameState) (hgt : Good t) :
    Good (if 1 < t.chefX then moveChef t (t.chefX - 1) t.chefY else t) := by
  split_ifs with h
  · exact good_moveChef t _ _ hgt (by omega)
      (by have := hgt.2.1; omega) hgt.2.2.1 hgt.2.2.2.1
  · exact hgt

/-- Stepping one square left (y-1) when allowed preserves the invariant. -/
lemma good_leftStep (t : GameState) (hgt : Good t) :
    Good (if 1 < t.chefY then moveChef t t.chefX (t.chefY - 1) else t) := by
  split_ifs with h
  · exact good_moveChef t _ _ hgt hgt.1 hgt.2.1 (by omega)
      (by have := hgt.2.2.2.1; omega)
  · exact hgt

/-- Stepping one square right (y+1) when allowed preserves the invariant. -/
lemma good_rightStep (t : GameState) (hgt : Good t) :
    Good (if t.chefY < 3 then moveChef t t.chefX (t.chefY + 1) else t) := by
  split_ifs with h
  · exact good_moveChef t _ _ hgt hgt.1 hgt.2.1 (by omega) (by omega)
  · exact hgt

/-- `Game::handle_event` preserves the play invariant for every event. -/
lemma good_handle (r : ℕ → ℕ) (e : GEvent) (s : GameState) (hg : Good s) :
    Good ((handle_event r e s).2) := by
  match e with
  | .other => exact hg
  | .press d =>
    match d with
    | .up =>
      show Good (if (if s.chefX = 3 then getFood r 1 s else s).chefX < 3
          then moveChef (if s.chefX = 3 then getFood r 1 s else s)
            ((if s.chefX = 3 then getFood r 1 s else s).chefX + 1)
            (if s.chefX = 3 then getFood r 1 s else s).chefY
          else (if s.chefX = 3 then getFood r 1 s else s))
      by_cases hb : s.chefX = 3
      · simp only [if_pos hb]
        exact good_upStep _ (good_getFood r 1 s hg)
      · simp only [if_neg hb]
        exact good_upStep _ hg
    | .down =>
      show Good (if 1 < (if s.chefX = 1 then getFood r 0 s else s).chefX
          then moveChef (if s.chefX = 1 then getFood r 0 s else s)
            ((if s.chefX = 1 then getFood r 0 s else s).chefX - 1)
            (if s.chefX = 1 then getFood r 0 s else s).chefY
          else (if s.chefX = 1 then getFood r 0 s else s))
      by_cases hb : s.chefX = 1
      · simp only [if_pos hb]
        exact good_downStep _ (good_getFood r 0 s hg)
      · simp only [if_neg hb]
        exact good_downStep _ hg
    | .left =>
      show Good (if 1 < (if s.chefY = 1 then getFood r 2 s else s).chefY
          then moveChef (if s.chefY = 1 then getFood r 2 s else s)
            (if s.chefY = 1 then getFood r 2 s else s).chefX
            ((if s.chefY = 1 then getFood r 2 s else s).chefY - 1)
          else (if s.chefY = 1 then getFood r 2 s else s))
      by_cases hb : s.chefY = 1
      · simp only [if_pos hb]
        exact good_leftStep _ (good_getFood r 2 s hg)
      · simp only [if_neg hb]
        exact good_leftStep _ hg
    | .right =>
      show Good (if (if s.chefY = 3 then getFood r 3 s else s).chefY < 3
          then moveChef (if s.chefY = 3 then getFood r 3 s else s)
            (if s.chefY = 3 then getFood r 3 s else s).chefX
            ((if s.chefY = 3 then getFood r 3 s else s).chefY + 1)
          else (if s.chefY = 3 then getFood r 3 s else s))
      by_cases hb : s.chefY = 3
      · simp only [if_pos hb]
        exact good_rightStep _ (good_getFood r 3 s hg)
      · simp only [if_neg hb]
        exact good_rightStep _ hg

/-- Each operation preserves the play invariant. -/
lemma good_runOp (op : Op) (s : GameState) (hg : Good s) : Good (runOp op s) :=
  match op with
  | .reinit r => good_initBoard r s
  | .move r d => good_handle r (GEvent.press d) s hg

/-- The play invariant survives any operation sequence. -/
lemma good_runOps :
    ∀ (ops : List Op) (s : GameState), Good s → Good (runOps s ops)
  | [], _, hg => hg
  | op :: rest, s, hg => good_runOps rest (runOp op s) (good_runOp op s hg)

/-- On a goal square with all flags set, `Game::getFood` performs the full
win reset: flags zeroed, then `initBoard`. -/
lemma getFood_win (r : ℕ → ℕ) (dir : ℕ) (s : GameState)
    (ht : s.board (targetCell s dir) = 5)
    (hw : s.winPB = 1 ∧ s.winJ = 1 ∧ s.winBread = 1) :
    getFood r dir s = ⟨freshBoard r, 2, 2, 0, 0, 0⟩ := by
  unfold getFood
  rw [ht]
  rw [if_pos (by norm_num : (1:ℕ) < 5 ∧ (5:ℕ) < 6), if_pos rfl, if_pos hw]
  rfl

/-- On a goal square with some flag unset, `Game::getFood` does nothing. -/
lemma getFood_goal_nowin (r : ℕ → ℕ) (dir : ℕ) (s : GameState)
    (ht : s.board (targetCell s dir) = 5)
    (hw : ¬(s.winPB = 1 ∧ s.winJ = 1 ∧ s.winBread = 1)) :
    getFood r dir s = s := by
  unfold getFood
  rw [ht]
  rw [if_pos (by norm_num : (1:ℕ) < 5 ∧ (5:ℕ) < 6), if_pos rfl, if_neg hw]

/-- Whenever the win branch is not taken, `Game::getFood` leaves the chef
where it is, touches at most the inspected cell, and is a complete no-op
unless an ingredient sits on the inspected cell. -/
lemma getFood_nonwin_chef (r : ℕ → ℕ) (dir : ℕ) (s : GameState)
    (hnw : ¬(s.board (targetCell s dir) = 5 ∧
      s.winPB = 1 ∧ s.winJ = 1 ∧ s.winBread = 1)) :
    (getFood r dir s).chefX = s.chefX ∧ (getFood r dir s).chefY = s.chefY ∧
    (∀ c : Cell, c ≠ targetCell s dir → (getFood r dir s).board c = s.board c) ∧
    (¬(s.board (targetCell s dir) = 2 ∨ s.board (targetCell s dir) = 3 ∨
        s.board (targetCell s dir) = 4) →
      getFood r dir s = s) := by
  unfold getFood
  split_ifs with h1 h2 h3 h4 h5
  · exact absurd ⟨h2, h3⟩ hnw
  · exact ⟨rfl, rfl, fun c hc => rfl, fun _ => rfl⟩
  · refine ⟨rfl, rfl, ?_, ?_⟩
    · intro c hc
      show setCell s.board (targetCell s dir) 6 c = s.board c
      rw [setCell_apply, if_neg hc]
    · intro hno
      exact absurd (Or.inr (Or.inl h4)) hno
  · refine ⟨rfl, rfl, ?_, ?_⟩
    · intro c hc
      show setCell s.board (targetCell s dir) 6 c = s.board c
      rw [setCell_apply, if_neg hc]
    · intro hno
      exact absurd (Or.inl h5) hno
  · refine ⟨rfl, rfl, ?_, ?_⟩
    · intro c hc
      show setCell s.board (targetCell s dir) 6 c = s.board c
      rw [setCell_apply, if_neg hc]
    · intro hno
      have h4v : s.board (targetCell s dir) = 4 := by omega
      exact absurd (Or.inr (Or.inr h4v)) hno
  · exact ⟨rfl, rfl, fun c hc => rfl, fun _ => rfl⟩

/-- `Game::getFood` does nothing when the inspected cell holds no item. -/
lemma getFood_noop (r : ℕ → ℕ) (dir : ℕ) (s : GameState)
    (h : ¬(1 < s.board (targetCell s dir) ∧ s.board (targetCell s dir) < 6)) :
    getFood r dir s = s := by
  unfold getFood
  rw [if_neg h]

/-- A constant `rand()` stream used for the concrete instances below. -/
def r0 : ℕ → ℕ := fun _ => 0

/-- A state like a mid-round position: all three flags already set, static
layout on the board. -/
def sFlags : GameState := ⟨initGrid, 2, 2, 1, 1, 1⟩

/-- Claim C1: with the character adjacent to a goal cell, `Game::getFood`
on that cell performs the full reset (fresh item placement, all flags
cleared, character at `(2,2)`) exactly when all three flags were set, and
leaves the state completely unchanged otherwise. -/
theorem getFood_goal_win_iff (r : ℕ → ℕ) (dir : ℕ) (s : GameState)
    (h : s.board (targetCell s dir) = 5) :
    ((s.winPB = 1 ∧ s.winJ = 1 ∧ s.winBread = 1) →
      getFood r dir s = ⟨freshBoard r, 2, 2, 0, 0, 0⟩) ∧
    (¬(s.winPB = 1 ∧ s.winJ = 1 ∧ s.winBread = 1) →
      getFood r dir s = s) :=
  ⟨fun hw => getFood_win r dir s h hw,
   fun hw => getFood_goal_nowin r dir s h hw⟩

/-- A state whose chef stands at `(3,2)` next to the goal at `(4,2)` with
all three flags set. -/
def sGoal : GameState :=
  ⟨fun c => if c = (4,2) then 5 else if c = (2,2) then 0
    else if c = (3,2) then 1 else initGrid c, 3, 2, 1, 1, 1⟩

/-- Witness for C1 at the concrete state `sGoal` (direction code 1, the
cell below the chef in board coordinates). -/
theorem getFood_goal_win_iff_witness :
    ((sGoal.winPB = 1 ∧ sGoal.winJ = 1 ∧ sGoal.winBread = 1) →
      getFood r0 1 sGoal = ⟨freshBoard r0, 2, 2, 0, 0, 0⟩) ∧
    (¬(sGoal.winPB = 1 ∧ sGoal.winJ = 1 ∧ sGoal.winBread = 1) →
      getFood r0 1 sGoal = sGoal) :=
  getFood_goal_win_iff r0 1 sGoal (by decide)

/-- Claim C2: starting from a fresh `Game::initBoard`, after any sequence
of re-initializations and directional presses exactly one cell of the 5×5
grid holds the chef code 1. -/
theorem runOps_charCount_one (r : ℕ → ℕ) (s : GameState) (ops : List Op) :
    countCode (runOps (initBoard r s) ops).board 1 = 1 := by
  obtain ⟨hx1, hx3, hy1, hy3, hchef, hother⟩ :=
    good_runOps ops (initBoard r s) (good_initBoard r s)
  refine countCode_eq_one _ 1 _ ?_ hchef hother
  simp only [allCells, Finset.mem_product, Finset.mem_range]
  omega

/-- Claim C10: starting from a fresh `Game::initBoard`, after any sequence
of re-initializations and directional presses (wins and their resets
included) the chef coordinates stay within `[1,3]×[1,3]`. -/
theorem runOps_chef_in_interior (r : ℕ → ℕ) (s : GameState) (ops : List Op) :
    1 ≤ (runOps (initBoard r s) ops).chefX ∧
    (runOps (initBoard r s) ops).chefX ≤ 3 ∧
    1 ≤ (runOps (initBoard r s) ops).chefY ∧
    (runOps (initBoard r s) ops).chefY ≤ 3 := by
  obtain ⟨hx1, hx3, hy1, hy3, _, _⟩ :=
    good_runOps ops (initBoard r s) (good_initBoard r s)
  exact ⟨hx1, hx3, hy1, hy3⟩

/-- Claim C5 (amended): `Game::initBoard` resets the grid and puts the
character at `(2,2)` but leaves all three collected-ingredient flags
exactly as they were; the flags are cleared by `Game::getFood` itself just
before it calls `initBoard` on a win. -/
theorem initBoard_flags_unchanged (r : ℕ → ℕ) (s : GameState) :
    (initBoard r s).winPB = s.winPB ∧ (initBoard r s).winJ = s.winJ ∧
    (initBoard r s).winBread = s.winBread ∧
    (initBoard r s).chefX = 2 ∧ (initBoard r s).chefY = 2 ∧
    (initBoard r s).board = freshBoard r :=
  ⟨rfl, rfl, rfl, rfl, rfl, rfl⟩

/-- Counterexample to C5 as stated: calling `Game::initBoard` on a state
with all three flags set leaves all three flags set (equal to 1), so
`initBoard` alone does not reset the collected flags to false. -/
theorem initBoard_flags_cex :
    sFlags.winPB = 1 ∧ sFlags.winJ = 1 ∧ sFlags.winBread = 1 ∧
    (initBoard r0 sFlags).winPB = 1 ∧ (initBoard r0 sFlags).winJ = 1 ∧
    (initBoard r0 sFlags).winBread = 1 :=
  ⟨rfl, rfl, rfl, rfl, rfl, rfl⟩

/-- Claim C7: `Game::spawnFood` on a three-cell candidate list.  The code
has no size check and no error value: it places one item per remaining
candidate and the fourth draw evaluates `rand() % 0`, which is undefined
behaviour (modelled as `none`); no `InsufficientSpawnCells` error exists
anywhere in the source. -/
theorem spawnFood_three_cells_fails (r : ℕ → ℕ) (b : Board) :
    spawnFood r [(0,1), (0,2), (0,3)] b = none :=
  spawnFoodGo_short r 4 0 [(0,1), (0,2), (0,3)] b (by decide)

/-- A mid-round state: chef at `(3,2)`, nothing on the inspected side
square `(4,2)` (it holds the out-of-play code 6), no flags set. -/
def s8 : GameState :=
  ⟨fun c => if c = (2,2) then 0 else if c = (3,2) then 1 else initGrid c,
   3, 2, 0, 0, 0⟩

/-- Counterexample to C8 as stated: this directional press changes nothing
at all (the returned state is the argument state), yet `handle_event`
returns true. -/
theorem handle_event_true_without_change :
    handle_event r0 (GEvent.press Dir.up) s8 = (true, s8) := rfl

/-- Claim C8 (amended): `Game::handle_event` returns true for every
non-repeat directional press, whether or not any state change occurred,
and false (with the state untouched) for every other event. -/
theorem handle_event_return_value (r : ℕ → ℕ) (d : Dir) (s : GameState) :
    (handle_event r (GEvent.press d) s).1 = true ∧
    handle_event r GEvent.other s = (false, s) := by
  cases d <;> exact ⟨rfl, rfl⟩

/-- A state whose chef stands at `(1,2)` with jelly on the adjacent side
square `(0,2)` and no flags set. -/
def sJam : GameState :=
  ⟨fun c => if c = (0,2) then 2 else if c = (2,2) then 0
    else if c = (1,2) then 1 else initGrid c, 1, 2, 0, 0, 0⟩

/-- Counterexample to C3 as stated: collecting the jelly sets its flag but
writes the out-of-play code 6 into the collected cell, not the empty
code 0. -/
theorem getFood_cell_not_emptied :
    (getFood r0 0 sJam).winJ = 1 ∧ (getFood r0 0 sJam).board (0, 2) = 6 ∧
    ¬(getFood r0 0 sJam).board (0, 2) = 0 := by decide

/-- Claim C3 (amended): collecting an ingredient cell sets the matching
flag to 1 and overwrites the cell with the out-of-play code 6 (not the
empty code 0), leaving the chef in place and every other cell unchanged;
a second collection attempt at that cell is then a complete no-op, because
the cell no longer holds an item code. -/
theorem getFood_ingredient_collect (r r2 : ℕ → ℕ) (dir : ℕ) (s : GameState)
    (h : s.board (targetCell s dir) = 2 ∨ s.board (targetCell s dir) = 3 ∨
      s.board (targetCell s dir) = 4) :
    (getFood r dir s).board (targetCell s dir) = 6 ∧
    (s.board (targetCell s dir) = 2 → (getFood r dir s).winJ = 1) ∧
    (s.board (targetCell s dir) = 3 → (getFood r dir s).winPB = 1) ∧
    (s.board (targetCell s dir) = 4 → (getFood r dir s).winBread = 1) ∧
    (getFood r dir s).chefX = s.chefX ∧ (getFood r dir s).chefY = s.chefY ∧
    (∀ c : Cell, c ≠ targetCell s dir →
      (getFood r dir s).board c = s.board c) ∧
    getFood r2 dir (getFood r dir s) = getFood r dir s := by
  rcases h with h | h | h
  · have e1 : getFood r dir s =
        { s with winJ := 1, board := setCell s.board (targetCell s dir) 6 } := by
      unfold getFood
      rw [h]
      rw [if_pos (by norm_num : (1:ℕ) < 2 ∧ (2:ℕ) < 6),
        if_neg (by norm_num : ¬(2:ℕ) = 5), if_neg (by norm_num : ¬(2:ℕ) = 3),
        if_pos rfl]
    refine ⟨?_, fun _ => by rw [e1], fun h3 => ?_, fun h4 => ?_,
      by rw [e1], by rw [e1], ?_, ?_⟩
    · rw [e1]
      show setCell s.board (targetCell s dir) 6 (targetCell s dir) = 6
      rw [setCell_apply, if_pos rfl]
    · rw [h] at h3
      exact absurd h3 (by norm_num)
    · rw [h] at h4
      exact absurd h4 (by norm_num)
    · rw [e1]
      intro c hc
      show setCell s.board (targetCell s dir) 6 c = s.board c
      rw [setCell_apply, if_neg hc]
    · rw [e1]
      apply getFood_noop
      show ¬(1 < setCell s.board (targetCell s dir) 6 (targetCell s dir) ∧
        setCell s.board (targetCell s dir) 6 (targetCell s dir) < 6)
      rw [setCell_apply, if_pos rfl]
      norm_num
  · have e1 : getFood r dir s =
        { s with winPB := 1, board := setCell s.board (targetCell s dir) 6 } := by
      unfold getFood
      rw [h]
      rw [if_pos (by norm_num : (1:ℕ) < 3 ∧ (3:ℕ) < 6),
        if_neg (by norm_num : ¬(3:ℕ) = 5), if_pos rfl]
    refine ⟨?_, fun h2 => ?_, fun _ => by rw [e1], fun h4 => ?_,
      by rw [e1], by rw [e1], ?_, ?_⟩
    · rw [e1]
      show setCell s.board (targetCell s dir) 6 (targetCell s dir) = 6
      rw [setCell_apply, if_pos rfl]
    · rw [h] at h2
      exact absurd h2 (by norm_num)
    · rw [h] at h4
      exact absurd h4 (by norm_num)
    · rw [e1]
      intro c hc
      show setCell s.board (targetCell s dir) 6 c = s.board c
      rw [setCell_apply, if_neg hc]
    · rw [e1]
      apply getFood_noop
      show ¬(1 < setCell s.board (targetCell s dir) 6 (targetCell s dir) ∧
        setCell s.board (targetCell s dir) 6 (targetCell s dir) < 6)
      rw [setCell_apply, if_pos rfl]
      norm_num
  · have e1 : getFood r dir s =
        { s with winBread := 1, board := setCell s.board (targetCell s dir) 6 } := by
      unfold getFood
      rw [h]
      rw [if_pos (by norm_num : (1:ℕ) < 4 ∧ (4:ℕ) < 6),
        if_neg (by norm_num : ¬(4:ℕ) = 5), if_neg (by norm_num : ¬(4:ℕ) = 3),
        if_neg (by norm_num : ¬(4:ℕ) = 2)]
    refine ⟨?_, fun h2 => ?_, fun h3 => ?_, fun _ => by rw [e1],
      by rw [e1], by rw [e1], ?_, ?_⟩
    · rw [e1]
      show setCell s.board (targetCell s dir) 6 (targetCell s dir) = 6
      rw [setCell_apply, if_pos rfl]
    · rw [h] at h2
      exact absurd h2 (by norm_num)
    · rw [h] at h3
      exact absurd h3 (by norm_num)
    · rw [e1]
      intro c hc
      show setCell s.board (targetCell s dir) 6 c = s.board c
      rw [setCell_apply, if_neg hc]
    · rw [e1]
      apply getFood_noop
      show ¬(1 < setCell s.board (targetCell s dir) 6 (targetCell s dir) ∧
        setCell s.board (targetCell s dir) 6 (targetCell s dir) < 6)
      rw [setCell_apply, if_pos rfl]
      norm_num

/-- Witness for the amended C3 at the concrete jelly pickup `sJam`. -/
theorem getFood_ingredient_collect_witness :
    (getFood r0 0 sJam).board (targetCell sJam 0) = 6 ∧
    (sJam.board (targetCell sJam 0) = 2 → (getFood r0 0 sJam).winJ = 1) ∧
    (sJam.board (targetCell sJam 0) = 3 → (getFood r0 0 sJam).winPB = 1) ∧
    (sJam.board (targetCell sJam 0) = 4 → (getFood r0 0 sJam).winBread = 1) ∧
    (getFood r0 0 sJam).chefX = sJam.chefX ∧
    (getFood r0 0 sJam).chefY = sJam.chefY ∧
    (∀ c : Cell, c ≠ targetCell sJam 0 →
      (getFood r0 0 sJam).board c = sJam.board c) ∧
    getFood r0 0 (getFood r0 0 sJam) = getFood r0 0 sJam :=
  getFood_ingredient_collect r0 r0 0 sJam (Or.inl (by decide))

/-- Claim C6: immediately after `Game::initBoard`, exactly one cell holds
peanut butter (3), exactly one jelly (2), exactly one bread (4) and
exactly one the goal (5); the four cells are pairwise distinct members of
the fixed 12-cell candidate list, assigned in the fixed priority order
peanut butter, jelly, bread, goal (the order of the nested writes). -/
theorem initBoard_items_unique (r : ℕ → ℕ) (s : GameState) :
    ∃ c0 c1 c2 c3 : Cell,
      c0 ∈ fillIn ∧ c1 ∈ fillIn ∧ c2 ∈ fillIn ∧ c3 ∈ fillIn ∧
      c0 ≠ c1 ∧ c0 ≠ c2 ∧ c0 ≠ c3 ∧ c1 ≠ c2 ∧ c1 ≠ c3 ∧ c2 ≠ c3 ∧
      (initBoard r s).board =
        setCell (setCell (setCell (setCell initGrid c0 3) c1 2) c2 4) c3 5 ∧
      countCode (initBoard r s).board 3 = 1 ∧
      countCode (initBoard r s).board 2 = 1 ∧
      countCode (initBoard r s).board 4 = 1 ∧
      countCode (initBoard r s).board 5 = 1 := by
  obtain ⟨c0, c1, c2, c3, m0, m1, m2, m3, d01, d02, d03, d12, d13, d23, hb⟩ :=
    freshBoard_spec r
  have hbb : (initBoard r s).board =
      setCell (setCell (setCell (setCell initGrid c0 3) c1 2) c2 4) c3 5 := hb
  have hgF : ∀ c : Cell,
      initGrid c ≠ 2 ∧ initGrid c ≠ 3 ∧ initGrid c ≠ 4 ∧ initGrid c ≠ 5 := by
    intro c
    rcases initGrid_cases c with h | h | h <;>
      exact ⟨by omega, by omega, by omega, by omega⟩
  refine ⟨c0, c1, c2, c3, m0, m1, m2, m3, d01, d02, d03, d12, d13, d23, hbb,
    ?_, ?_, ?_, ?_⟩
  · refine countCode_eq_one _ 3 c0 (fillIn_sub_allCells c0 m0) ?_ ?_
    · rw [hbb, layered_apply, if_neg d03, if_neg d02, if_neg d01, if_pos rfl]
    · intro c hc
      rw [hbb, layered_apply]
      split_ifs <;>
        first
          | contradiction
          | decide
          | exact (hgF c).1
          | exact (hgF c).2.1
          | exact (hgF c).2.2.1
          | exact (hgF c).2.2.2
  · refine countCode_eq_one _ 2 c1 (fillIn_sub_allCells c1 m1) ?_ ?_
    · rw [hbb, layered_apply, if_neg d13, if_neg d12, if_pos rfl]
    · intro c hc
      rw [hbb, layered_apply]
      split_ifs <;>
        first
          | contradiction
          | decide
          | exact (hgF c).1
          | exact (hgF c).2.1
          | exact (hgF c).2.2.1
          | exact (hgF c).2.2.2
  · refine countCode_eq_one _ 4 c2 (fillIn_sub_allCells c2 m2) ?_ ?_
    · rw [hbb, layered_apply, if_neg d23, if_pos rfl]
    · intro c hc
      rw [hbb, layered_apply]
      split_ifs <;>
        first
          | contradiction
          | decide
          | exact (hgF c).1
          | exact (hgF c).2.1
          | exact (hgF c).2.2.1
          | exact (hgF c).2.2.2
  · refine countCode_eq_one _ 5 c3 (fillIn_sub_allCells c3 m3) ?_ ?_
    · rw [hbb, layered_apply, if_pos rfl]
    · intro c hc
      rw [hbb, layered_apply]
      split_ifs <;>
        first
          | contradiction
          | decide
          | exact (hgF c).1
          | exact (hgF c).2.1
          | exact (hgF c).2.2.1
          | exact (hgF c).2.2.2

/-- The `getFood` direction argument used by `Game::handle_event` for each
arrow key (up passes 1, down 0, left 2, right 3). -/
def dirCode : Dir → ℕ
  | .up => 1
  | .down => 0
  | .left => 2
  | .right => 3

/-- The chef stands at the interior boundary for this key, so the step
would exit the movable interior `[1,3]×[1,3]`. -/
def atBoundary (s : GameState) : Dir → Prop
  | .up => s.chefX = 3
  | .down => s.chefX = 1
  | .left => s.chefY = 1
  | .right => s.chefY = 3

/-- Where the chef ends up when a boundary press triggers the win reset:
the same press then moves the chef one step out of the fresh `(2,2)`. -/
def postWinChef : Dir → Cell
  | .up => (3, 2)
  | .down => (1, 2)
  | .left => (2, 1)
  | .right => (2, 3)

/-- A state with the chef at `(3,1)`, the goal on the adjacent side square
`(4,1)` and all three flags set: one press away from winning. -/
def s4 : GameState :=
  ⟨fun c => if c = (4,1) then 5 else if c = (2,2) then 0
    else if c = (3,1) then 1 else initGrid c, 3, 1, 1, 1, 1⟩

/-- Counterexample to C4 as stated: a press in a direction that would exit
the interior (chef at `(3,1)`, up key) does change the character position
when it triggers the win, because the board reset puts the chef at `(2,2)`
and the same press then moves it one square: the chef ends at `(3,2)`,
while it stood at `(3,1)` before the call. -/
theorem handle_event_win_moves_chef :
    s4.chefX = 3 ∧ s4.chefY = 1 ∧
    (handle_event r0 (GEvent.press Dir.up) s4).2.chefX = 3 ∧
    (handle_event r0 (GEvent.press Dir.up) s4).2.chefY = 2 := by decide

/-- Claim C4 (amended): a press in a direction that would exit the interior
bounds leaves the character position unchanged and touches at most the
adjacent perimeter cell (a complete no-op unless an ingredient sits there),
EXCEPT when the goal condition triggers: then the whole board is freshly
re-initialized and the same press immediately moves the chef one step out
of the new `(2,2)` start square. -/
theorem handle_event_boundary_frame (r : ℕ → ℕ) (d : Dir) (s : GameState)
    (hb : atBoundary s d) :
    (¬(s.board (targetCell s (dirCode d)) = 5 ∧
        s.winPB = 1 ∧ s.winJ = 1 ∧ s.winBread = 1) →
      (handle_event r (GEvent.press d) s).2.chefX = s.chefX ∧
      (handle_event r (GEvent.press d) s).2.chefY = s.chefY ∧
      (∀ c : Cell, c ≠ targetCell s (dirCode d) →
        (handle_event r (GEvent.press d) s).2.board c = s.board c) ∧
      (¬(s.board (targetCell s (dirCode d)) = 2 ∨
          s.board (targetCell s (dirCode d)) = 3 ∨
          s.board (targetCell s (dirCode d)) = 4) →
        (handle_event r (GEvent.press d) s).2 = s)) ∧
    ((s.board (targetCell s (dirCode d)) = 5 ∧
        s.winPB = 1 ∧ s.winJ = 1 ∧ s.winBread = 1) →
      (handle_event r (GEvent.press d) s).2 =
        moveChef ⟨freshBoard r, 2, 2, 0, 0, 0⟩
          (postWinChef d).1 (postWinChef d).2) := by
  cases d with
  | up =>
    have hbx : s.chefX = 3 := hb
    constructor
    · intro hnw
      obtain ⟨hcx, hcy, hbrd, hnoop⟩ := getFood_nonwin_chef r 1 s hnw
      have hxg : (getFood r 1 s).chefX = 3 := by rw [hcx, hbx]
      have hs1 : (handle_event r (GEvent.press Dir.up) s).2 = getFood r 1 s := by
        show (if (if s.chefX = 3 then getFood r 1 s else s).chefX < 3
            then moveChef (if s.chefX = 3 then getFood r 1 s else s)
              ((if s.chefX = 3 then getFood r 1 s else s).chefX + 1)
              (if s.chefX = 3 then getFood r 1 s else s).chefY
            else (if s.chefX = 3 then getFood r 1 s else s)) = getFood r 1 s
        simp only [if_pos hbx, hxg]
        norm_num
      rw [hs1]
      exact ⟨hcx, hcy, hbrd, hnoop⟩
    · intro hw
      have e : getFood r 1 s = ⟨freshBoard r, 2, 2, 0, 0, 0⟩ :=
        getFood_win r 1 s hw.1 ⟨hw.2.1, hw.2.2.1, hw.2.2.2⟩
      show (if (if s.chefX = 3 then getFood r 1 s else s).chefX < 3
          then moveChef (if s.chefX = 3 then getFood r 1 s else s)
            ((if s.chefX = 3 then getFood r 1 s else s).chefX + 1)
            (if s.chefX = 3 then getFood r 1 s else s).chefY
          else (if s.chefX = 3 then getFood r 1 s else s)) =
        moveChef ⟨freshBoard r, 2, 2, 0, 0, 0⟩
          (postWinChef Dir.up).1 (postWinChef Dir.up).2
      simp only [if_pos hbx, e]
      norm_num [postWinChef]
  | down =>
    have hbx : s.chefX = 1 := hb
    constructor
    · intro hnw
      obtain ⟨hcx, hcy, hbrd, hnoop⟩ := getFood_nonwin_chef r 0 s hnw
      have hxg : (getFood r 0 s).chefX = 1 := by rw [hcx, hbx]
      have hs1 : (handle_event r (GEvent.press Dir.down) s).2 = getFood r 0 s := by
        show (if 1 < (if s.chefX = 1 then getFood r 0 s else s).chefX
            then moveChef (if s.chefX = 1 then getFood r 0 s else s)
              ((if s.chefX = 1 then getFood r 0 s else s).chefX - 1)
              (if s.chefX = 1 then getFood r 0 s else s).chefY
            else (if s.chefX = 1 then getFood r 0 s else s)) = getFood r 0 s
        simp only [if_pos hbx, hxg]
        norm_num
      rw [hs1]
      exact ⟨hcx, hcy, hbrd, hnoop⟩
    · intro hw
      have e : getFood r 0 s = ⟨freshBoard r, 2, 2, 0, 0, 0⟩ :=
        getFood_win r 0 s hw.1 ⟨hw.2.1, hw.2.2.1, hw.2.2.2⟩
      show (if 1 < (if s.chefX = 1 then getFood r 0 s else s).chefX
          then moveChef (if s.chefX = 1 then getFood r 0 s else s)
            ((if s.chefX = 1 then getFood r 0 s else s).chefX - 1)
            (if s.chefX = 1 then getFood r 0 s else s).chefY
          else (if s.chefX = 1 then getFood r 0 s else s)) =
        moveChef ⟨freshBoard r, 2, 2, 0, 0, 0⟩
          (postWinChef Dir.down).1 (postWinChef Dir.down).2
      simp only [if_pos hbx, e]
      norm_num [postWinChef]
  | left =>
    have hby : s.chefY = 1 := hb
    constructor
    · intro hnw
      obtain ⟨hcx, hcy, hbrd, hnoop⟩ := getFood_nonwin_chef r 2 s hnw
      have hyg : (getFood r 2 s).chefY = 1 := by rw [hcy, hby]
      have hs1 : (handle_event r (GEvent.press Dir.left) s).2 = getFood r 2 s := by
        show (if 1 < (if s.chefY = 1 then getFood r 2 s else s).chefY
            then moveChef (if s.chefY = 1 then getFood r 2 s else s)
              (if s.chefY = 1 then getFood r 2 s else s).chefX
              ((if s.chefY = 1 then getFood r 2 s else s).chefY - 1)
            else (if s.chefY = 1 then getFood r 2 s else s)) = getFood r 2 s
        simp only [if_pos hby, hyg]
        norm_num
      rw [hs1]
      exact ⟨hcx, hcy, hbrd, hnoop⟩
    · intro hw
      have e : getFood r 2 s = ⟨freshBoard r, 2, 2, 0, 0, 0⟩ :=
        getFood_win r 2 s hw.1 ⟨hw.2.1, hw.2.2.1, hw.2.2.2⟩
      show (if 1 < (if s.chefY = 1 then getFood r 2 s else s).chefY
          then moveChef (if s.chefY = 1 then getFood r 2 s else s)
            (if s.chefY = 1 then getFood r 2 s else s).chefX
            ((if s.chefY = 1 then getFood r 2 s else s).chefY - 1)
          else (if s.chefY = 1 then getFood r 2 s else s)) =
        moveChef ⟨freshBoard r, 2, 2, 0, 0, 0⟩
          (postWinChef Dir.left).1 (postWinChef Dir.left).2
      simp only [if_pos hby, e]
      norm_num [postWinChef]
  | right =>
    have hby : s.chefY = 3 := hb
    constructor
    · intro hnw
      obtain ⟨hcx, hcy, hbrd, hnoop⟩ := getFood_nonwin_chef r 3 s hnw
      have hyg : (getFood r 3 s).chefY = 3 := by rw [hcy, hby]
      have hs1 : (handle_event r (GEvent.press Dir.right) s).2 = getFood r 3 s := by
        show (if (if s.chefY = 3 then getFood r 3 s else s).chefY < 3
            then moveChef (if s.chefY = 3 then getFood r 3 s else s)
              (if s.chefY = 3 then getFood r 3 s else s).chefX
              ((if s.chefY = 3 then getFood r 3 s else s).chefY + 1)
            else (if s.chefY = 3 then getFood r 3 s else s)) = getFood r 3 s
        simp only [if_pos hby, hyg]
        norm_num
      rw [hs1]
      exact ⟨hcx, hcy, hbrd, hnoop⟩
    · intro hw
      have e : getFood r 3 s = ⟨freshBoard r, 2, 2, 0, 0, 0⟩ :=
        getFood_win r 3 s hw.1 ⟨hw.2.1, hw.2.2.1, hw.2.2.2⟩
      show (if (if s.chefY = 3 then getFood r 3 s else s).chefY < 3
          then moveChef (if s.chefY = 3 then getFood r 3 s else s)
            (if s.chefY = 3 then getFood r 3 s else s).chefX
            ((if s.chefY = 3 then getFood r 3 s else s).chefY + 1)
          else (if s.chefY = 3 then getFood r 3 s else s)) =
        moveChef ⟨freshBoard r, 2, 2, 0, 0, 0⟩
          (postWinChef Dir.right).1 (postWinChef Dir.right).2
      simp only [if_pos hby, e]
      norm_num [postWinChef]

/-- Witness for the amended C4: the chef of `s8` stands at the upper
boundary with an empty (out-of-play) square beyond, so the up press changes
nothing. -/
theorem handle_event_boundary_frame_witness :
    (¬(s8.board (targetCell s8 (dirCode Dir.up)) = 5 ∧
        s8.winPB = 1 ∧ s8.winJ = 1 ∧ s8.winBread = 1) →
      (handle_event r0 (GEvent.press Dir.up) s8).2.chefX = s8.chefX ∧
      (handle_event r0 (GEvent.press Dir.up) s8).2.chefY = s8.chefY ∧
      (∀ c : Cell, c ≠ targetCell s8 (dirCode Dir.up) →
        (handle_event r0 (GEvent.press Dir.up) s8).2.board c = s8.board c) ∧
      (¬(s8.board (targetCell s8 (dirCode Dir.up)) = 2 ∨
          s8.board (targetCell s8 (dirCode Dir.up)) = 3 ∨
          s8.board (targetCell s8 (dirCode Dir.up)) = 4) →
        (handle_event r0 (GEvent.press Dir.up) s8).2 = s8)) ∧
    ((s8.board (targetCell s8 (dirCode Dir.up)) = 5 ∧
        s8.winPB = 1 ∧ s8.winJ = 1 ∧ s8.winBread = 1) →
      (handle_event r0 (GEvent.press Dir.up) s8).2 =
        moveChef ⟨freshBoard r0, 2, 2, 0, 0, 0⟩
          (postWinChef Dir.up).1 (postWinChef Dir.up).2) :=
  handle_event_boundary_frame r0 Dir.up s8 rfl

/-- A deterministic `rand()` stream: 3, 3, 3, then 0.  Under it the spawn
draws pick, in order, the cells `(1,0)` (peanut butter), `(2,0)` (jelly),
`(3,0)` (bread) and `(0,1)` (goal) of the candidate list. -/
def r9 : ℕ → ℕ := fun i => if i < 3 then 3 else 0

/-- An arbitrary pre-initialization state. -/
def d0 : GameState := ⟨fun _ => 0, 0, 0, 0, 0, 0⟩

/-- The freshly initialized board of the C9 scenario. -/
def c9s0 : GameState := initBoard r9 d0

/-- The scenario state after the first left press. -/
def c9s1 : GameState := (handle_event r9 (GEvent.press Dir.left) c9s0).2

/-- The scenario state after the second left press. -/
def c9s2 : GameState := (handle_event r9 (GEvent.press Dir.left) c9s1).2

/-- Claim C9: the seeded scenario.  The claim writes cells as `(a, b)` in
the draw-logic transposed orientation, i.e. its `(a, b)` is the source's
`board[b][a]` (the spec flags exactly this swapped index order between the
update and draw logic): its placement `(0,1)=PB, (0,2)=J, (0,3)=Bread,
(1,0)=Goal` is `board[1][0]=3, board[2][0]=2, board[3][0]=4, board[0][1]=5`,
and its positions `(2,2)` and `(1,2)` are `chef=(2,2)` and `chef=(2,1)`.
With the seeded stream `r9`, the chef starts at `(2,2)`; the first left
press moves it to chef `(2,1)` (the claim's `(1,2)`); the second left press
would exit the bounds, so it runs the interaction check on `board[2][0]`
(the claim's `(0,2)`), collects the jelly (`winJ` becomes 1, the cell is
cleared), and the chef stays at chef `(2,1)`. -/
theorem seeded_scenario_left_collects_jelly :
    c9s0.chefX = 2 ∧ c9s0.chefY = 2 ∧
    c9s0.board (1, 0) = 3 ∧ c9s0.board (2, 0) = 2 ∧
    c9s0.board (3, 0) = 4 ∧ c9s0.board (0, 1) = 5 ∧
    c9s1.chefX = 2 ∧ c9s1.chefY = 1 ∧ c9s1.winJ = 0 ∧
    c9s2.chefX = 2 ∧ c9s2.chefY = 1 ∧ c9s2.winJ = 1 ∧
    c9s2.board (2, 0) = 6 := by decide
